import Mathlib

/-!
# The VolumeSnapshotClass backup item action

A shallow embedding of `internal/backup/volumesnapshotclass_action.go`.

* Go maps and slices can be nil; both are modelled with an explicit nil case.
* The unstructured converter (`runtime.DefaultUnstructuredConverter`) belongs to
  an external library: it is a parameter of `Execute`.
* The three annotation-key constants of package `util` are not among the
  sources: they are a parameter (`UtilConstants`).
* The logger is state that is threaded through every call.
-/

namespace VolumeSnapshotClassAction

/-! ## Go maps -/

/-- A Go value of type `map[string]string`: the nil map, or a map given by its
bindings. The first binding of a key in the list is the one in force. -/
inductive GoMap where
  | nil
  | mk (entries : List (String × String))
deriving DecidableEq, Repr

/-- First binding of key `k` in a list of bindings. -/
def lookupEntries (k : String) : List (String × String) → Option String
  | [] => none
  | (k', v) :: rest => if k' = k then some v else lookupEntries k rest

/-- The statement `m[k] = v` on the bindings of a non-nil map: every earlier
binding of `k` is replaced by the single new one. -/
def assignEntries (es : List (String × String)) (k v : String) : List (String × String) :=
  (k, v) :: es.filter (fun e => decide (e.1 ≠ k))

namespace GoMap

/-- Bindings of a map; the nil map has none. -/
def entries : GoMap → List (String × String)
  | nil => []
  | mk es => es

/-- The two-valued index expression `v, ok := m[k]`: `none` stands for `ok = false`. -/
def lookup (m : GoMap) (k : String) : Option String :=
  lookupEntries k m.entries

/-- The index expression `m[k]`: the zero value `""` when the key is absent
(reading from the nil map is allowed). -/
def index (m : GoMap) (k : String) : String :=
  (m.lookup k).getD ""

end GoMap

/-! ## Data of the collaborating packages -/

/-- The part of `metav1.ObjectMeta` the action can observe. -/
structure ObjectMeta where
  Name : String
  Annotations : GoMap
deriving DecidableEq, Repr

/-- The typed record `snapshotv1api.VolumeSnapshotClass`; the object metadata is
an embedded struct, so its fields are promoted. -/
structure VolumeSnapshotClass extends ObjectMeta where
  Driver : String
  Parameters : GoMap
  DeletionPolicy : String
deriving DecidableEq, Repr

/-- The value `schema.GroupResource`. -/
structure GroupResource where
  Group : String
  Resource : String
deriving DecidableEq, Repr

/-- The value `velero.ResourceIdentifier`; the group resource is embedded. -/
structure ResourceIdentifier extends GroupResource where
  Namespace : String
  Name : String
deriving DecidableEq, Repr

/-- The value `velero.ResourceSelector`; a nil slice is `none`. -/
structure ResourceSelector where
  IncludedNamespaces : Option (List String) := none
  ExcludedNamespaces : Option (List String) := none
  IncludedResources : Option (List String) := none
  ExcludedResources : Option (List String) := none
  LabelSelector : String := ""
deriving DecidableEq, Repr

/-- The value `velero.OperationProgress`; times are counted from the zero time. -/
structure OperationProgress where
  Completed : Bool := false
  Err : String := ""
  NCompleted : Int := 0
  NTotal : Int := 0
  OperationUnits : String := ""
  Description : String := ""
  Started : Int := 0
  Updated : Int := 0
deriving DecidableEq, Repr

/-- The backup the item belongs to (`velerov1api.Backup`); the action never reads it. -/
structure Backup where
  Name : String
  Namespace : String
deriving DecidableEq, Repr

/-- Error values the action can return. -/
inductive GoError where
  | conversion (msg : String)
  | withStack (cause : GoError)
  | invalidOperationID (operationID : String)
deriving DecidableEq, Repr

/-- The constructor `biav2.InvalidOperationIDError`. -/
def InvalidOperationIDError (operationID : String) : GoError :=
  GoError.invalidOperationID operationID

/-- The value `unstructured.Unstructured` over a document type `M`
(`map[string]interface{}` in the source). -/
structure Unstructured (M : Type) where
  Object : M
deriving DecidableEq, Repr

/-- The method `UnstructuredContent`. -/
def Unstructured.UnstructuredContent {M : Type} (u : Unstructured M) : M :=
  u.Object

/-- The two directions of `runtime.DefaultUnstructuredConverter`, an external
library: a parameter of the action. -/
structure UnstructuredConverter (M : Type) where
  FromUnstructured : M → Except GoError VolumeSnapshotClass
  ToUnstructured : VolumeSnapshotClass → Except GoError M

/-- The annotation-key constants of package `util`, whose values are not among
the sources: a parameter of the action. -/
structure UtilConstants where
  PrefixedSnapshotterListSecretNameKey : String
  PrefixedSnapshotterListSecretNamespaceKey : String
  MustIncludeAdditionalItemAnnotation : String
deriving DecidableEq, Repr

/-! ## Helpers of package `util` -/

/-- Modelled from the spec: `util.IsVolumeSnapshotClassHasListerSecret` is not
among the sources. Spec §4.1 step 2 and §6: the predicate decides "has lister
secret" from the two lookup annotation keys of the record. It tests that both
keys exist in the annotation mapping and does not look at the values bound to
them, which `Execute` reads itself; a key bound to the empty string exists.
The words "and are non-empty" of the spec are not part of the test. -/
def IsVolumeSnapshotClassHasListerSecret (c : UtilConstants) (vc : VolumeSnapshotClass) : Bool :=
  let nameExists := (vc.Annotations.lookup c.PrefixedSnapshotterListSecretNameKey).isSome
  let nsExists := (vc.Annotations.lookup c.PrefixedSnapshotterListSecretNamespaceKey).isSome
  nameExists && nsExists

/-- Modelled from the spec: `util.AddAnnotations` is not among the sources.
Spec §4.1 step 3: the given values are set on the record's annotation mapping,
the mapping being created if absent. -/
def AddAnnotations (o : ObjectMeta) (vals : GoMap) : ObjectMeta :=
  { o with
    Annotations :=
      GoMap.mk (vals.entries.foldl (fun acc kv => assignEntries acc kv.1 kv.2) o.Annotations.entries) }

/-! ## The action -/

/-- Severity of a log line. -/
inductive LogLevel where
  | debug
  | info
deriving DecidableEq, Repr

/-- The struct `VolumeSnapshotClassBackupItemAction`: its only field is the
logger, modelled by the lines written so far. -/
structure VolumeSnapshotClassBackupItemAction where
  Log : List (LogLevel × String)
deriving DecidableEq, Repr

/-- Writes one line to the logger. -/
def VolumeSnapshotClassBackupItemAction.logLine (p : VolumeSnapshotClassBackupItemAction)
    (lvl : LogLevel) (msg : String) : VolumeSnapshotClassBackupItemAction :=
  { p with Log := p.Log ++ [(lvl, msg)] }

/-- The method `AppliesTo`: selector, error, and the action after logging. -/
def AppliesTo (p : VolumeSnapshotClassBackupItemAction) :
    (ResourceSelector × Option GoError) × VolumeSnapshotClassBackupItemAction :=
  let p := p.logLine LogLevel.debug "VolumeSnapshotClassBackupItemAction AppliesTo"
  (({ IncludedResources := some ["volumesnapshotclass.snapshot.storage.k8s.io"] }, none), p)

/-- The five results of `Execute`. A nil interface, slice or error is `none`. -/
structure ExecuteResult (M : Type) where
  item : Option (Unstructured M)
  additionalItems : Option (List ResourceIdentifier)
  operationID : String
  relatedItems : Option (List ResourceIdentifier)
  err : Option GoError
deriving DecidableEq, Repr

/-- The method `Execute`. -/
def Execute {M : Type} (c : UtilConstants) (conv : UnstructuredConverter M)
    (p : VolumeSnapshotClassBackupItemAction) (item : Unstructured M) (_backup : Option Backup) :
    ExecuteResult M × VolumeSnapshotClassBackupItemAction :=
  let p := p.logLine LogLevel.info "Executing VolumeSnapshotClassBackupItemAction"
  match conv.FromUnstructured item.UnstructuredContent with
  | Except.error err => (⟨none, none, "", none, some (GoError.withStack err)⟩, p)
  | Except.ok snapClass =>
    let additionalItems : List ResourceIdentifier := []
    let (snapClass, additionalItems) :=
      if IsVolumeSnapshotClassHasListerSecret c snapClass then
        let additionalItems := additionalItems ++ [
          { Group := "", Resource := "secrets",
            Name := snapClass.Annotations.index c.PrefixedSnapshotterListSecretNameKey,
            Namespace := snapClass.Annotations.index c.PrefixedSnapshotterListSecretNamespaceKey }]
        ({ snapClass with
            toObjectMeta := AddAnnotations snapClass.toObjectMeta
              (GoMap.mk [(c.MustIncludeAdditionalItemAnnotation, "true")]) },
          additionalItems)
      else (snapClass, additionalItems)
    match conv.ToUnstructured snapClass with
    | Except.error err => (⟨none, none, "", none, some (GoError.withStack err)⟩, p)
    | Except.ok snapClassMap =>
      let p := p.logLine LogLevel.info
        ("Returning from VolumeSnapshotClassBackupItemAction with "
          ++ toString additionalItems.length ++ " additionalItems to backup")
      (⟨some ⟨snapClassMap⟩, some additionalItems, "", none, none⟩, p)

/-- The method `Name`. -/
def Name (_p : VolumeSnapshotClassBackupItemAction) : String :=
  "VolumeSnapshotClassBackupItemAction"

/-- The method `Progress`. -/
def Progress (_p : VolumeSnapshotClassBackupItemAction) (operationID : String)
    (_backup : Option Backup) : OperationProgress × Option GoError :=
  let progress : OperationProgress := {}
  if operationID = "" then
    (progress, some (InvalidOperationIDError operationID))
  else
    (progress, none)

/-- The method `Cancel`. -/
def Cancel (_p : VolumeSnapshotClassBackupItemAction) (_operationID : String)
    (_backup : Option Backup) : Option GoError :=
  none

/-! ## Concrete instances used for evaluation -/

/-- A key set with three distinct keys. -/
def sampleKeys : UtilConstants :=
  { PrefixedSnapshotterListSecretNameKey := "list-secret-name"
    PrefixedSnapshotterListSecretNamespaceKey := "list-secret-namespace"
    MustIncludeAdditionalItemAnnotation := "must-include" }

/-- The lossless converter whose documents are the typed records themselves. -/
def typedConverter : UnstructuredConverter VolumeSnapshotClass :=
  { FromUnstructured := fun m => Except.ok m
    ToUnstructured := fun sc => Except.ok sc }

/-- A converter that decodes every document and fails to encode any record. -/
def encodeFailingConverter : UnstructuredConverter VolumeSnapshotClass :=
  { FromUnstructured := fun m => Except.ok m
    ToUnstructured := fun _ => Except.error (GoError.conversion "cannot encode") }

/-- A converter that fails to decode every document. -/
def decodeFailingConverter : UnstructuredConverter VolumeSnapshotClass :=
  { FromUnstructured := fun _ => Except.error (GoError.conversion "cannot decode")
    ToUnstructured := fun sc => Except.ok sc }

/-- A record with the given annotation mapping. -/
def sampleClass (ann : GoMap) : VolumeSnapshotClass :=
  { Name := "csi-class", Annotations := ann, Driver := "hostpath.csi.k8s.io",
    Parameters := GoMap.nil, DeletionPolicy := "Delete" }

/-- Annotations naming the lister secret `sec1` in namespace `ns1`. -/
def secretAnnotations : GoMap :=
  GoMap.mk [("list-secret-name", "sec1"), ("list-secret-namespace", "ns1")]

/-- The annotations of `secretAnnotations` with the marker set. -/
def markedSecretAnnotations : GoMap :=
  GoMap.mk [("must-include", "true"), ("list-secret-name", "sec1"),
    ("list-secret-namespace", "ns1")]

/-- The reference to the secret `sec1` in namespace `ns1`. -/
def sec1Reference : ResourceIdentifier :=
  { Group := "", Resource := "secrets", Name := "sec1", Namespace := "ns1" }

/-- The component with an empty log. -/
def freshAction : VolumeSnapshotClassBackupItemAction := { Log := [] }

/-- Two records with the same content: equal name, driver and deletion policy,
and maps that bind the same keys to the same values. Neither the order of the
bindings nor the difference between a nil and an empty map counts. -/
def SameContent (x y : VolumeSnapshotClass) : Prop :=
  x.Name = y.Name ∧ x.Driver = y.Driver ∧ x.DeletionPolicy = y.DeletionPolicy ∧
  (∀ k, x.Annotations.lookup k = y.Annotations.lookup k) ∧
  (∀ k, x.Parameters.lookup k = y.Parameters.lookup k)

/-- Converter contract, decoding (spec §6): the encoding of a record decodes to
a record with the same content. -/
def DecodesEncoded {M : Type} (conv : UnstructuredConverter M) : Prop :=
  ∀ (x : VolumeSnapshotClass) (m : M),
    conv.ToUnstructured x = Except.ok m →
    ∃ y, conv.FromUnstructured m = Except.ok y ∧ SameContent y x

/-- Converter contract, encoding (spec §6): records with the same content have
the same encoding. -/
def EncodesContent {M : Type} (conv : UnstructuredConverter M) : Prop :=
  ∀ x y : VolumeSnapshotClass, SameContent x y → conv.ToUnstructured x = conv.ToUnstructured y

/-- The bindings in force, one for each key, in the order of the keys. -/
def canonicalEntries (es : List (String × String)) : List (String × String) :=
  ((es.map Prod.fst).toFinset.sort (· ≤ ·)).map (fun k => (k, (lookupEntries k es).getD ""))

/-- A map as a document stores it: bindings in key order, and no map at all when
there is no binding. -/
def canonicalMap (m : GoMap) : GoMap :=
  match canonicalEntries m.entries with
  | [] => GoMap.nil
  | e :: es => GoMap.mk (e :: es)

/-- A record with both of its maps in document form. -/
def canonicalize (x : VolumeSnapshotClass) : VolumeSnapshotClass :=
  { x with Annotations := canonicalMap x.Annotations, Parameters := canonicalMap x.Parameters }

/-- A converter that, like a document, keeps neither the order of the bindings
of a map nor an empty map: it encodes a record as its document form. -/
def canonicalConverter : UnstructuredConverter VolumeSnapshotClass :=
  { FromUnstructured := fun m => Except.ok m
    ToUnstructured := fun x => Except.ok (canonicalize x) }

/-- The converter contract of spec §6: a record that was encoded decodes to
itself. -/
def RoundTrips {M : Type} (conv : UnstructuredConverter M) : Prop :=
  ∀ (sc : VolumeSnapshotClass) (m : M),
    conv.ToUnstructured sc = Except.ok m → conv.FromUnstructured m = Except.ok sc

/-! ## Lemmas on maps -/

@[simp] theorem GoMap.entries_nil : GoMap.nil.entries = [] := rfl

@[simp] theorem GoMap.entries_mk (es : List (String × String)) : (GoMap.mk es).entries = es := rfl

theorem lookupEntries_filter_ne (k k' : String) (h : k' ≠ k) (es : List (String × String)) :
    lookupEntries k' (es.filter (fun e => decide (e.1 ≠ k))) = lookupEntries k' es := by
  induction es with
  | nil => rfl
  | cons e rest ih =>
    obtain ⟨a, b⟩ := e
    by_cases hak : a = k
    · have hne : ¬ a = k' := fun h' => h (h'.symm.trans hak)
      have hf : decide ((a, b).1 ≠ k) = false := by simp [hak]
      rw [List.filter_cons_of_neg (by simp [hak]), ih]
      simp [lookupEntries, hne]
    · rw [List.filter_cons_of_pos (by simp [hak])]
      by_cases hak' : a = k'
      · simp [lookupEntries, hak']
      · rw [lookupEntries, if_neg hak', ih, lookupEntries, if_neg hak']

theorem lookupEntries_assign_self (es : List (String × String)) (k v : String) :
    lookupEntries k (assignEntries es k v) = some v := by
  simp [assignEntries, lookupEntries]

theorem lookupEntries_assign_ne (es : List (String × String)) (k k' v : String) (h : k' ≠ k) :
    lookupEntries k' (assignEntries es k v) = lookupEntries k' es := by
  have hne : ¬ k = k' := fun h' => h h'.symm
  unfold assignEntries
  rw [lookupEntries, if_neg hne, lookupEntries_filter_ne k k' h]

theorem assignEntries_idem (es : List (String × String)) (k v : String) :
    assignEntries (assignEntries es k v) k v = assignEntries es k v := by
  simp [assignEntries, List.filter]

theorem assignEntries_count (es : List (String × String)) (k v : String) :
    ((assignEntries es k v).filter (fun e => decide (e.1 = k))).length = 1 := by
  simp [assignEntries, List.filter, List.filter_filter]

/-- The predicate holds exactly when both lister-secret annotation keys are
present. -/
theorem hasListerSecret_iff (c : UtilConstants) (vc : VolumeSnapshotClass) :
    IsVolumeSnapshotClassHasListerSecret c vc = true ↔
      ∃ name ns,
        vc.Annotations.lookup c.PrefixedSnapshotterListSecretNameKey = some name ∧
        vc.Annotations.lookup c.PrefixedSnapshotterListSecretNamespaceKey = some ns := by
  unfold IsVolumeSnapshotClassHasListerSecret
  cases h1 : vc.Annotations.lookup c.PrefixedSnapshotterListSecretNameKey with
  | none => simp
  | some name =>
    cases h2 : vc.Annotations.lookup c.PrefixedSnapshotterListSecretNamespaceKey with
    | none => simp
    | some ns => simp

/-! ## Lemmas on `Execute` -/

theorem Execute_decode_error {M : Type} (c : UtilConstants) (conv : UnstructuredConverter M)
    (p : VolumeSnapshotClassBackupItemAction) (item : Unstructured M) (backup : Option Backup)
    (e : GoError) (hFrom : conv.FromUnstructured item.UnstructuredContent = Except.error e) :
    (Execute c conv p item backup).1 = ⟨none, none, "", none, some (GoError.withStack e)⟩ := by
  simp [Execute, hFrom]

theorem Execute_without_secret {M : Type} (c : UtilConstants) (conv : UnstructuredConverter M)
    (p : VolumeSnapshotClassBackupItemAction) (item : Unstructured M) (backup : Option Backup)
    (sc : VolumeSnapshotClass)
    (hFrom : conv.FromUnstructured item.UnstructuredContent = Except.ok sc)
    (hSecret : IsVolumeSnapshotClassHasListerSecret c sc = false) :
    (Execute c conv p item backup).1 =
      match conv.ToUnstructured sc with
      | Except.error e => ⟨none, none, "", none, some (GoError.withStack e)⟩
      | Except.ok m => ⟨some ⟨m⟩, some [], "", none, none⟩ := by
  unfold Execute
  simp only [hFrom, hSecret]
  cases h : conv.ToUnstructured sc <;> simp [h]

theorem Execute_with_secret {M : Type} (c : UtilConstants) (conv : UnstructuredConverter M)
    (p : VolumeSnapshotClassBackupItemAction) (item : Unstructured M) (backup : Option Backup)
    (sc : VolumeSnapshotClass)
    (hFrom : conv.FromUnstructured item.UnstructuredContent = Except.ok sc)
    (hSecret : IsVolumeSnapshotClassHasListerSecret c sc = true) :
    (Execute c conv p item backup).1 =
      match conv.ToUnstructured
          { sc with
            Annotations := GoMap.mk (assignEntries sc.Annotations.entries
              c.MustIncludeAdditionalItemAnnotation "true") } with
      | Except.error e => ⟨none, none, "", none, some (GoError.withStack e)⟩
      | Except.ok m =>
        ⟨some ⟨m⟩,
          some [{ Group := "", Resource := "secrets",
                  Name := sc.Annotations.index c.PrefixedSnapshotterListSecretNameKey,
                  Namespace := sc.Annotations.index c.PrefixedSnapshotterListSecretNamespaceKey }],
          "", none, none⟩ := by
  unfold Execute
  simp only [hFrom, hSecret, if_true, AddAnnotations, GoMap.entries_mk, List.foldl,
    List.nil_append, List.length_singleton]
  split <;> rename_i h <;> simp [h]

theorem Execute_operationID {M : Type} (c : UtilConstants) (conv : UnstructuredConverter M)
    (p : VolumeSnapshotClassBackupItemAction) (item : Unstructured M) (backup : Option Backup) :
    (Execute c conv p item backup).1.operationID = "" ∧
    (Execute c conv p item backup).1.relatedItems = none := by
  cases hFrom : conv.FromUnstructured item.UnstructuredContent with
  | error e => simp [Execute_decode_error c conv p item backup e hFrom]
  | ok sc =>
    cases hSecret : IsVolumeSnapshotClassHasListerSecret c sc with
    | false =>
      rw [Execute_without_secret c conv p item backup sc hFrom hSecret]
      split <;> simp
    | true =>
      rw [Execute_with_secret c conv p item backup sc hFrom hSecret]
      split <;> simp

theorem Execute_error_zero {M : Type} (c : UtilConstants) (conv : UnstructuredConverter M)
    (p : VolumeSnapshotClassBackupItemAction) (item : Unstructured M) (backup : Option Backup)
    (h : (Execute c conv p item backup).1.err ≠ none) :
    (Execute c conv p item backup).1.item = none ∧
    (Execute c conv p item backup).1.additionalItems = none := by
  cases hFrom : conv.FromUnstructured item.UnstructuredContent with
  | error e => simp [Execute_decode_error c conv p item backup e hFrom]
  | ok sc =>
    cases hSecret : IsVolumeSnapshotClassHasListerSecret c sc with
    | false =>
      rw [Execute_without_secret c conv p item backup sc hFrom hSecret] at h ⊢
      split at h <;> simp_all
    | true =>
      rw [Execute_with_secret c conv p item backup sc hFrom hSecret] at h ⊢
      split at h <;> simp_all

/-- Setting the marker does not change the verdict of the predicate when the
marker key differs from both lister-secret keys. -/
theorem hasListerSecret_marked (c : UtilConstants) (sc : VolumeSnapshotClass)
    (hName : c.PrefixedSnapshotterListSecretNameKey ≠ c.MustIncludeAdditionalItemAnnotation)
    (hNamespace :
      c.PrefixedSnapshotterListSecretNamespaceKey ≠ c.MustIncludeAdditionalItemAnnotation) :
    IsVolumeSnapshotClassHasListerSecret c
      { sc with
        Annotations := GoMap.mk (assignEntries sc.Annotations.entries
          c.MustIncludeAdditionalItemAnnotation "true") } =
    IsVolumeSnapshotClassHasListerSecret c sc := by
  simp only [IsVolumeSnapshotClassHasListerSecret, GoMap.lookup, GoMap.entries_mk,
    lookupEntries_assign_ne _ _ _ _ hName, lookupEntries_assign_ne _ _ _ _ hNamespace]

/-- A successful `Execute` encoded either the record as decoded (no lister
secret) or the record with the marker set (lister secret). -/
theorem Execute_item_cases {M : Type} (c : UtilConstants) (conv : UnstructuredConverter M)
    (p : VolumeSnapshotClassBackupItemAction) (item : Unstructured M) (backup : Option Backup)
    (sc : VolumeSnapshotClass) (m : M)
    (hFrom : conv.FromUnstructured item.UnstructuredContent = Except.ok sc)
    (hItem : (Execute c conv p item backup).1.item = some ⟨m⟩) :
    (IsVolumeSnapshotClassHasListerSecret c sc = false ∧ conv.ToUnstructured sc = Except.ok m) ∨
    (IsVolumeSnapshotClassHasListerSecret c sc = true ∧
      conv.ToUnstructured
        { sc with
          Annotations := GoMap.mk (assignEntries sc.Annotations.entries
            c.MustIncludeAdditionalItemAnnotation "true") } = Except.ok m) := by
  cases hSecret : IsVolumeSnapshotClassHasListerSecret c sc with
  | false =>
    left
    rw [Execute_without_secret c conv p item backup sc hFrom hSecret] at hItem
    cases hTo : conv.ToUnstructured sc with
    | error e => simp [hTo] at hItem
    | ok m' =>
      simp [hTo] at hItem
      simp [hItem]
  | true =>
    right
    rw [Execute_with_secret c conv p item backup sc hFrom hSecret] at hItem
    split at hItem
    · simp at hItem
    · rename_i m' hTo
      simp at hItem
      simp [hTo, hItem]

/-- The annotation lookups of a record after the marker was assigned. -/
theorem lookup_marked (c : UtilConstants) (sc : VolumeSnapshotClass) (k : String) :
    (GoMap.mk (assignEntries sc.Annotations.entries
        c.MustIncludeAdditionalItemAnnotation "true")).lookup k =
      if k = c.MustIncludeAdditionalItemAnnotation then some "true"
      else sc.Annotations.lookup k := by
  by_cases h : k = c.MustIncludeAdditionalItemAnnotation
  · subst h
    simp [GoMap.lookup, lookupEntries_assign_self]
  · simp [GoMap.lookup, lookupEntries_assign_ne _ _ _ _ h, h]

/-- The predicate depends on the annotation lookups only. -/
theorem hasListerSecret_congr (c : UtilConstants) (x y : VolumeSnapshotClass)
    (h : ∀ k, x.Annotations.lookup k = y.Annotations.lookup k) :
    IsVolumeSnapshotClassHasListerSecret c x = IsVolumeSnapshotClassHasListerSecret c y := by
  simp [IsVolumeSnapshotClassHasListerSecret, h]

/-! ## Lemmas on the canonical converter -/

theorem lookupEntries_map_keys (f : String → String) (k : String) (ks : List String) :
    lookupEntries k (ks.map (fun k' => (k', f k'))) = if k ∈ ks then some (f k) else none := by
  induction ks with
  | nil => simp [lookupEntries]
  | cons a rest ih =>
    by_cases h : a = k
    · subst h
      simp [lookupEntries]
    · have hne : ¬ k = a := fun h' => h h'.symm
      simp [lookupEntries, h, hne, ih]

theorem mem_keys_iff (k : String) (es : List (String × String)) :
    k ∈ es.map Prod.fst ↔ lookupEntries k es ≠ none := by
  induction es with
  | nil => simp [lookupEntries]
  | cons e rest ih =>
    obtain ⟨a, b⟩ := e
    by_cases h : a = k
    · subst h
      simp [lookupEntries]
    · have hne : ¬ k = a := fun h' => h h'.symm
      simp only [List.map_cons, List.mem_cons, hne, false_or, lookupEntries, if_neg h]
      exact ih

theorem lookupEntries_canonicalEntries (k : String) (es : List (String × String)) :
    lookupEntries k (canonicalEntries es) = lookupEntries k es := by
  unfold canonicalEntries
  rw [lookupEntries_map_keys]
  by_cases h : lookupEntries k es = none
  · have hmem : ¬ k ∈ (es.map Prod.fst).toFinset.sort (· ≤ ·) := by
      rw [Finset.mem_sort, List.mem_toFinset, mem_keys_iff]
      exact fun h' => h' h
    rw [if_neg hmem, h]
  · have hmem : k ∈ (es.map Prod.fst).toFinset.sort (· ≤ ·) := by
      rw [Finset.mem_sort, List.mem_toFinset, mem_keys_iff]
      exact h
    rw [if_pos hmem]
    cases hv : lookupEntries k es with
    | none => exact absurd hv h
    | some v => rfl

theorem canonicalEntries_congr (a b : List (String × String))
    (h : ∀ k, lookupEntries k a = lookupEntries k b) :
    canonicalEntries a = canonicalEntries b := by
  have hKeys : (a.map Prod.fst).toFinset = (b.map Prod.fst).toFinset := by
    ext k
    rw [List.mem_toFinset, List.mem_toFinset, mem_keys_iff, mem_keys_iff, h k]
  have hFun : (fun k => (k, (lookupEntries k a).getD "")) =
      (fun k => (k, (lookupEntries k b).getD "")) := by
    funext k
    rw [h k]
  unfold canonicalEntries
  rw [hKeys, hFun]

theorem lookup_canonicalMap (m : GoMap) (k : String) :
    (canonicalMap m).lookup k = m.lookup k := by
  have h := lookupEntries_canonicalEntries k m.entries
  unfold canonicalMap
  split
  · rename_i hNil
    rw [hNil] at h
    exact h
  · rename_i e es hCons
    rw [hCons] at h
    exact h

theorem canonicalMap_congr (a b : GoMap) (h : ∀ k, a.lookup k = b.lookup k) :
    canonicalMap a = canonicalMap b := by
  unfold canonicalMap
  rw [canonicalEntries_congr a.entries b.entries h]

/-- The canonical converter decodes the encoding of a record to a record with
the same content. -/
theorem canonicalConverter_decodes : DecodesEncoded canonicalConverter := by
  intro x m h
  simp only [canonicalConverter, Except.ok.injEq] at h
  subst h
  exact ⟨canonicalize x, rfl, rfl, rfl, rfl,
    fun k => lookup_canonicalMap x.Annotations k, fun k => lookup_canonicalMap x.Parameters k⟩

/-- The canonical converter encodes records with the same content alike. -/
theorem canonicalConverter_encodes : EncodesContent canonicalConverter := by
  intro x y h
  obtain ⟨h1, h2, h3, h4, h5⟩ := h
  have hEq : canonicalize x = canonicalize y := by
    cases x with
    | mk xm xd xp xq =>
      cases xm
      cases y with
      | mk ym yd yp yq =>
        cases ym
        simp only [canonicalize] at *
        simp [h1, h2, h3, canonicalMap_congr _ _ h4, canonicalMap_congr _ _ h5]
  simp [canonicalConverter, hEq]

/-- The predicate fails as soon as one of the two lister-secret annotation keys
is absent. -/
theorem hasListerSecret_false_of_absent (c : UtilConstants) (sc : VolumeSnapshotClass)
    (h : sc.Annotations.lookup c.PrefixedSnapshotterListSecretNameKey = none ∨
         sc.Annotations.lookup c.PrefixedSnapshotterListSecretNamespaceKey = none) :
    IsVolumeSnapshotClassHasListerSecret c sc = false := by
  rcases h with h | h <;> simp [IsVolumeSnapshotClassHasListerSecret, h]

/-! ## The claims -/

/-- C1: when the input decodes to a record on which the lister-secret predicate
holds and the record with the marker set encodes to `m`, `Execute` returns no
error, the document `m`, and exactly one additional item: the secret in the core
group named by the two lister-secret annotations. `m` is the encoding of a record
whose annotation mapping is non-nil and maps the marker key to `"true"`. -/
theorem execute_lister_secret_present {M : Type} (c : UtilConstants)
    (conv : UnstructuredConverter M) (p : VolumeSnapshotClassBackupItemAction)
    (item : Unstructured M) (backup : Option Backup) (sc : VolumeSnapshotClass) (m : M)
    (hFrom : conv.FromUnstructured item.UnstructuredContent = Except.ok sc)
    (hSecret : IsVolumeSnapshotClassHasListerSecret c sc = true)
    (hTo : conv.ToUnstructured
        { sc with
          Annotations := GoMap.mk (assignEntries sc.Annotations.entries
            c.MustIncludeAdditionalItemAnnotation "true") } = Except.ok m) :
    (Execute c conv p item backup).1 =
      ⟨some ⟨m⟩,
        some [{ Group := "", Resource := "secrets",
                Name := sc.Annotations.index c.PrefixedSnapshotterListSecretNameKey,
                Namespace := sc.Annotations.index c.PrefixedSnapshotterListSecretNamespaceKey }],
        "", none, none⟩ ∧
    ∃ out : VolumeSnapshotClass,
      conv.ToUnstructured out = Except.ok m ∧
      out.Annotations ≠ GoMap.nil ∧
      out.Annotations.lookup c.MustIncludeAdditionalItemAnnotation = some "true" := by
  refine ⟨?_, _, hTo, ?_, ?_⟩
  · rw [Execute_with_secret c conv p item backup sc hFrom hSecret, hTo]
  · simp
  · simp [GoMap.lookup, lookupEntries_assign_self]

/-- The record with list-secret name `sec1` and namespace `ns1` yields the single
reference to that secret and the marker `"true"`. -/
theorem execute_lister_secret_present_witness :
    (Execute sampleKeys typedConverter freshAction ⟨sampleClass secretAnnotations⟩ none).1 =
      ⟨some ⟨sampleClass markedSecretAnnotations⟩, some [sec1Reference], "", none, none⟩ ∧
    ∃ out : VolumeSnapshotClass,
      typedConverter.ToUnstructured out = Except.ok (sampleClass markedSecretAnnotations) ∧
      out.Annotations ≠ GoMap.nil ∧
      out.Annotations.lookup sampleKeys.MustIncludeAdditionalItemAnnotation = some "true" :=
  execute_lister_secret_present sampleKeys typedConverter freshAction
    ⟨sampleClass secretAnnotations⟩ none (sampleClass secretAnnotations)
    (sampleClass markedSecretAnnotations) rfl (by decide) (congrArg Except.ok (by decide))

/-- C2: when the input decodes to a record that carries neither lister-secret
annotation and that record encodes to `m`, `Execute` returns no error, an empty
non-nil list of additional items, and the document `m`, which is the encoding of
a record with the annotation mapping of the input. -/
theorem execute_no_lister_secret {M : Type} (c : UtilConstants)
    (conv : UnstructuredConverter M) (p : VolumeSnapshotClassBackupItemAction)
    (item : Unstructured M) (backup : Option Backup) (sc : VolumeSnapshotClass) (m : M)
    (hFrom : conv.FromUnstructured item.UnstructuredContent = Except.ok sc)
    (hName : sc.Annotations.lookup c.PrefixedSnapshotterListSecretNameKey = none)
    (hNamespace : sc.Annotations.lookup c.PrefixedSnapshotterListSecretNamespaceKey = none)
    (hTo : conv.ToUnstructured sc = Except.ok m) :
    (Execute c conv p item backup).1 = ⟨some ⟨m⟩, some [], "", none, none⟩ ∧
    ∃ out : VolumeSnapshotClass,
      conv.ToUnstructured out = Except.ok m ∧ out.Annotations = sc.Annotations := by
  have hSecret : IsVolumeSnapshotClassHasListerSecret c sc = false := by
    simp [IsVolumeSnapshotClassHasListerSecret, hName, hNamespace]
  refine ⟨?_, sc, hTo, rfl⟩
  rw [Execute_without_secret c conv p item backup sc hFrom hSecret, hTo]

/-- A record without annotations and a record with an unrelated annotation come
back unchanged with an empty list. -/
theorem execute_no_lister_secret_witness :
    (Execute sampleKeys typedConverter freshAction
        ⟨sampleClass (GoMap.mk [("team", "storage")])⟩ none).1 =
      ⟨some ⟨sampleClass (GoMap.mk [("team", "storage")])⟩, some [], "", none, none⟩ ∧
    ∃ out : VolumeSnapshotClass,
      typedConverter.ToUnstructured out = Except.ok (sampleClass (GoMap.mk [("team", "storage")])) ∧
      out.Annotations = (sampleClass (GoMap.mk [("team", "storage")])).Annotations :=
  execute_no_lister_secret sampleKeys typedConverter freshAction
    ⟨sampleClass (GoMap.mk [("team", "storage")])⟩ none
    (sampleClass (GoMap.mk [("team", "storage")]))
    (sampleClass (GoMap.mk [("team", "storage")])) rfl (by decide) (by decide) rfl

/-- C7: `Progress` returns an error exactly when the operation identifier is
the empty string; the error is the invalid-operation-identifier error carrying
the empty identifier; the progress status is the zero value in both cases; and
the result depends neither on the backup nor on the component. -/
theorem progress_contract (p p' : VolumeSnapshotClassBackupItemAction) (operationID : String)
    (backup backup' : Option Backup) :
    ((Progress p operationID backup).2 ≠ none ↔ operationID = "") ∧
    (Progress p "" backup).2 = some (GoError.invalidOperationID "") ∧
    (operationID ≠ "" → (Progress p operationID backup).2 = none) ∧
    (Progress p operationID backup).1 =
      { Completed := false, Err := "", NCompleted := 0, NTotal := 0, OperationUnits := "",
        Description := "", Started := 0, Updated := 0 } ∧
    Progress p operationID backup = Progress p' operationID backup' := by
  by_cases h : operationID = ""
  · subst h
    simp [Progress, InvalidOperationIDError]
  · simp [Progress, InvalidOperationIDError, h]

/-- The identifier `op-123` yields the zero progress status and no error; the
empty identifier yields the error. -/
theorem progress_contract_witness :
    Progress freshAction "op-123" none = ({}, none) ∧
    Progress freshAction "" (some ⟨"backup-1", "velero"⟩) =
      ({}, some (GoError.invalidOperationID "")) := by
  have h := progress_contract freshAction freshAction "op-123" none none
  have h' := progress_contract freshAction freshAction "" (some ⟨"backup-1", "velero"⟩) none
  refine ⟨Prod.ext h.2.2.2.1 (h.2.2.1 (by decide)), Prod.ext h'.2.2.2.1 h'.2.1⟩

/-- C8: when the first conversion fails, or the second one does (on the record
as decoded when there is no lister secret, on the record with the marker set
when there is one), `Execute` returns the wrapped error and nothing else: no
item, a nil list of additional items, the empty operation identifier and a nil
list of related items. In general an error result carries no other output. -/
theorem execute_conversion_failure {M : Type} (c : UtilConstants)
    (conv : UnstructuredConverter M) (p : VolumeSnapshotClassBackupItemAction)
    (item : Unstructured M) (backup : Option Backup) :
    (∀ e, conv.FromUnstructured item.UnstructuredContent = Except.error e →
      (Execute c conv p item backup).1 = ⟨none, none, "", none, some (GoError.withStack e)⟩) ∧
    (∀ sc e, conv.FromUnstructured item.UnstructuredContent = Except.ok sc →
      IsVolumeSnapshotClassHasListerSecret c sc = false →
      conv.ToUnstructured sc = Except.error e →
      (Execute c conv p item backup).1 = ⟨none, none, "", none, some (GoError.withStack e)⟩) ∧
    (∀ sc e, conv.FromUnstructured item.UnstructuredContent = Except.ok sc →
      IsVolumeSnapshotClassHasListerSecret c sc = true →
      conv.ToUnstructured
        { sc with
          Annotations := GoMap.mk (assignEntries sc.Annotations.entries
            c.MustIncludeAdditionalItemAnnotation "true") } = Except.error e →
      (Execute c conv p item backup).1 = ⟨none, none, "", none, some (GoError.withStack e)⟩) ∧
    ((Execute c conv p item backup).1.err ≠ none →
      (Execute c conv p item backup).1.item = none ∧
      (Execute c conv p item backup).1.additionalItems = none ∧
      (Execute c conv p item backup).1.operationID = "" ∧
      (Execute c conv p item backup).1.relatedItems = none) := by
  refine ⟨?_, ?_, ?_, ?_⟩
  · intro e hFrom
    exact Execute_decode_error c conv p item backup e hFrom
  · intro sc e hFrom hSecret hTo
    rw [Execute_without_secret c conv p item backup sc hFrom hSecret, hTo]
  · intro sc e hFrom hSecret hTo
    rw [Execute_with_secret c conv p item backup sc hFrom hSecret, hTo]
  · intro h
    exact ⟨(Execute_error_zero c conv p item backup h).1,
      (Execute_error_zero c conv p item backup h).2,
      (Execute_operationID c conv p item backup).1,
      (Execute_operationID c conv p item backup).2⟩

/-- A document that does not decode, and a record with a lister secret whose
marked form does not encode, both yield only the error. -/
theorem execute_conversion_failure_witness :
    (Execute sampleKeys decodeFailingConverter freshAction ⟨sampleClass secretAnnotations⟩
        none).1 =
      ⟨none, none, "", none, some (GoError.withStack (GoError.conversion "cannot decode"))⟩ ∧
    (Execute sampleKeys encodeFailingConverter freshAction ⟨sampleClass secretAnnotations⟩
        none).1 =
      ⟨none, none, "", none, some (GoError.withStack (GoError.conversion "cannot encode"))⟩ :=
  ⟨(execute_conversion_failure sampleKeys decodeFailingConverter freshAction
      ⟨sampleClass secretAnnotations⟩ none).1 (GoError.conversion "cannot decode") rfl,
   (execute_conversion_failure sampleKeys encodeFailingConverter freshAction
      ⟨sampleClass secretAnnotations⟩ none).2.2.1 (sampleClass secretAnnotations)
      (GoError.conversion "cannot encode") rfl (by decide) rfl⟩

/-- C9: whatever the input, the backup and the outcome, `Execute` returns the
empty operation identifier and a nil list of related items, so `Progress` called
with the identifier `Execute` returned fails with the invalid-operation-identifier
error. -/
theorem execute_never_async {M : Type} (c : UtilConstants) (conv : UnstructuredConverter M)
    (p p' : VolumeSnapshotClassBackupItemAction) (item : Unstructured M)
    (backup backup' : Option Backup) :
    (Execute c conv p item backup).1.operationID = "" ∧
    (Execute c conv p item backup).1.relatedItems = none ∧
    (Progress p' (Execute c conv p item backup).1.operationID backup').2 =
      some (GoError.invalidOperationID "") := by
  refine ⟨(Execute_operationID c conv p item backup).1,
    (Execute_operationID c conv p item backup).2, ?_⟩
  rw [(Execute_operationID c conv p item backup).1]
  simp [Progress, InvalidOperationIDError]

/-- The identifier returned for a record with a lister secret is rejected by
`Progress`. -/
theorem execute_never_async_witness :
    (Execute sampleKeys typedConverter freshAction ⟨sampleClass secretAnnotations⟩
        none).1.operationID = "" ∧
    (Execute sampleKeys typedConverter freshAction ⟨sampleClass secretAnnotations⟩
        none).1.relatedItems = none ∧
    (Progress freshAction
        (Execute sampleKeys typedConverter freshAction ⟨sampleClass secretAnnotations⟩
          none).1.operationID none).2 = some (GoError.invalidOperationID "") :=
  execute_never_async sampleKeys typedConverter freshAction freshAction
    ⟨sampleClass secretAnnotations⟩ none none

/-- C10: in every state of the component `AppliesTo` returns no error and the
selector whose included resources are the one-element list naming the
snapshot-class resource and whose other criteria are empty; this also holds
right after an earlier `AppliesTo` or `Execute`. -/
theorem appliesTo_fixed_selector {M : Type} (c : UtilConstants) (conv : UnstructuredConverter M)
    (p : VolumeSnapshotClassBackupItemAction) (item : Unstructured M) (backup : Option Backup) :
    (AppliesTo p).1 =
      ({ IncludedNamespaces := none, ExcludedNamespaces := none,
         IncludedResources := some ["volumesnapshotclass.snapshot.storage.k8s.io"],
         ExcludedResources := none, LabelSelector := "" }, none) ∧
    (AppliesTo (AppliesTo p).2).1 = (AppliesTo p).1 ∧
    (AppliesTo (Execute c conv p item backup).2).1 = (AppliesTo p).1 := by
  simp [AppliesTo]

/-- The selector returned by the fresh component. -/
theorem appliesTo_fixed_selector_witness :
    (AppliesTo freshAction).1 =
      ({ IncludedResources := some ["volumesnapshotclass.snapshot.storage.k8s.io"] }, none) :=
  (appliesTo_fixed_selector sampleKeys typedConverter freshAction
    ⟨sampleClass secretAnnotations⟩ none).1

/-- C3, counterexample: a record that already carries the marker annotation and
has no lister-secret annotation. `Execute` succeeds, the output still carries
the marker, and the list of additional items is empty. -/
theorem marker_without_secret_counterexample :
    (Execute sampleKeys typedConverter freshAction
        ⟨sampleClass (GoMap.mk [("must-include", "true")])⟩ none).1.err = none ∧
    (Execute sampleKeys typedConverter freshAction
        ⟨sampleClass (GoMap.mk [("must-include", "true")])⟩ none).1.item =
      some ⟨sampleClass (GoMap.mk [("must-include", "true")])⟩ ∧
    (sampleClass (GoMap.mk [("must-include", "true")])).Annotations.lookup
        sampleKeys.MustIncludeAdditionalItemAnnotation = some "true" ∧
    (Execute sampleKeys typedConverter freshAction
        ⟨sampleClass (GoMap.mk [("must-include", "true")])⟩ none).1.additionalItems =
      some [] := by
  decide

/-- C3, amended: for every input on which `Execute` succeeds, other than a
record that already carries the marker annotation while it has no lister
secret, the output is the encoding of a record such that, when that record
carries the marker, the list of additional items is exactly the one secret
named by the input's lister-secret annotations, and when it does not, the list
is empty. -/
theorem marker_written_implies_secret {M : Type} (c : UtilConstants)
    (conv : UnstructuredConverter M) (p : VolumeSnapshotClassBackupItemAction)
    (item : Unstructured M) (backup : Option Backup) (sc : VolumeSnapshotClass) (m : M)
    (hFrom : conv.FromUnstructured item.UnstructuredContent = Except.ok sc)
    (hInput : sc.Annotations.lookup c.MustIncludeAdditionalItemAnnotation = none ∨
      IsVolumeSnapshotClassHasListerSecret c sc = true)
    (hItem : (Execute c conv p item backup).1.item = some ⟨m⟩) :
    ∃ out : VolumeSnapshotClass,
      conv.ToUnstructured out = Except.ok m ∧
      (out.Annotations.lookup c.MustIncludeAdditionalItemAnnotation ≠ none →
        (Execute c conv p item backup).1.additionalItems =
          some [{ Group := "", Resource := "secrets",
                  Name := sc.Annotations.index c.PrefixedSnapshotterListSecretNameKey,
                  Namespace :=
                    sc.Annotations.index c.PrefixedSnapshotterListSecretNamespaceKey }]) ∧
      (out.Annotations.lookup c.MustIncludeAdditionalItemAnnotation = none →
        (Execute c conv p item backup).1.additionalItems = some []) := by
  rcases Execute_item_cases c conv p item backup sc m hFrom hItem with
    ⟨hSecret, hTo⟩ | ⟨hSecret, hTo⟩
  · have hAbsent : sc.Annotations.lookup c.MustIncludeAdditionalItemAnnotation = none := by
      rcases hInput with h | h
      · exact h
      · rw [hSecret] at h; cases h
    refine ⟨sc, hTo, fun hMarker => absurd hAbsent hMarker, fun _ => ?_⟩
    rw [Execute_without_secret c conv p item backup sc hFrom hSecret, hTo]
  · refine ⟨_, hTo, fun _ => ?_, fun hNone => ?_⟩
    · rw [Execute_with_secret c conv p item backup sc hFrom hSecret, hTo]
    · have hSome := lookup_marked c sc c.MustIncludeAdditionalItemAnnotation
      rw [if_pos rfl] at hSome
      rw [hSome] at hNone
      cases hNone

/-- A record that carries the marker together with the lister secret `sec1` in
`ns1`: the input restriction holds through the predicate. -/
theorem marker_written_implies_secret_witness :
    ∃ out : VolumeSnapshotClass,
      typedConverter.ToUnstructured out = Except.ok (sampleClass markedSecretAnnotations) ∧
      (out.Annotations.lookup sampleKeys.MustIncludeAdditionalItemAnnotation ≠ none →
        (Execute sampleKeys typedConverter freshAction ⟨sampleClass markedSecretAnnotations⟩
            none).1.additionalItems =
          some [{ Group := "", Resource := "secrets",
                  Name := (sampleClass markedSecretAnnotations).Annotations.index
                    sampleKeys.PrefixedSnapshotterListSecretNameKey,
                  Namespace := (sampleClass markedSecretAnnotations).Annotations.index
                    sampleKeys.PrefixedSnapshotterListSecretNamespaceKey }]) ∧
      (out.Annotations.lookup sampleKeys.MustIncludeAdditionalItemAnnotation = none →
        (Execute sampleKeys typedConverter freshAction ⟨sampleClass markedSecretAnnotations⟩
            none).1.additionalItems = some []) :=
  marker_written_implies_secret sampleKeys typedConverter freshAction
    ⟨sampleClass markedSecretAnnotations⟩ none (sampleClass markedSecretAnnotations)
    (sampleClass markedSecretAnnotations) rfl (Or.inr (by decide)) (by decide)

/-- C4, counterexample: a record with both lister-secret keys present and bound
to the empty string. `Execute` succeeds, returns one reference whose name and
namespace are both empty, and the output carries the marker. -/
theorem empty_annotations_counterexample :
    (Execute sampleKeys typedConverter freshAction
        ⟨sampleClass (GoMap.mk [("list-secret-name", ""), ("list-secret-namespace", "")])⟩
        none).1 =
      ⟨some ⟨sampleClass (GoMap.mk [("must-include", "true"), ("list-secret-name", ""),
          ("list-secret-namespace", "")])⟩,
        some [{ Group := "", Resource := "secrets", Name := "", Namespace := "" }],
        "", none, none⟩ := by
  decide

/-- C4, amended: when at least one of the two lister-secret annotation keys is
absent, `Execute` returns no additional item and an output, if any, that is the
encoding of the record exactly as decoded (the marker is not written). Every
reference `Execute` returns comes from a record in which both keys are present,
and carries the two values bound to them as its name and namespace. -/
theorem execute_absent_annotation_key {M : Type} (c : UtilConstants)
    (conv : UnstructuredConverter M) (p : VolumeSnapshotClassBackupItemAction)
    (item : Unstructured M) (backup : Option Backup) :
    (∀ sc, conv.FromUnstructured item.UnstructuredContent = Except.ok sc →
      (sc.Annotations.lookup c.PrefixedSnapshotterListSecretNameKey = none ∨
       sc.Annotations.lookup c.PrefixedSnapshotterListSecretNamespaceKey = none) →
      (Execute c conv p item backup).1.additionalItems.getD [] = [] ∧
      ∀ m, (Execute c conv p item backup).1.item = some ⟨m⟩ →
        conv.ToUnstructured sc = Except.ok m) ∧
    (∀ items ref, (Execute c conv p item backup).1.additionalItems = some items →
      ref ∈ items →
      ∃ sc name ns,
        conv.FromUnstructured item.UnstructuredContent = Except.ok sc ∧
        sc.Annotations.lookup c.PrefixedSnapshotterListSecretNameKey = some name ∧
        sc.Annotations.lookup c.PrefixedSnapshotterListSecretNamespaceKey = some ns ∧
        ref = { Group := "", Resource := "secrets", Name := name, Namespace := ns }) := by
  constructor
  · intro sc hFrom h
    have hSecret := hasListerSecret_false_of_absent c sc h
    constructor
    · rw [Execute_without_secret c conv p item backup sc hFrom hSecret]
      split <;> simp
    · intro m hItem
      rcases Execute_item_cases c conv p item backup sc m hFrom hItem with ⟨_, hTo⟩ | ⟨hTrue, _⟩
      · exact hTo
      · rw [hSecret] at hTrue; cases hTrue
  · intro items ref hItems hMem
    cases hFrom : conv.FromUnstructured item.UnstructuredContent with
    | error e =>
      rw [Execute_decode_error c conv p item backup e hFrom] at hItems
      simp at hItems
    | ok sc =>
      cases hSecret : IsVolumeSnapshotClassHasListerSecret c sc with
      | false =>
        rw [Execute_without_secret c conv p item backup sc hFrom hSecret] at hItems
        split at hItems
        · simp at hItems
        · simp at hItems
          subst hItems
          cases hMem
      | true =>
        obtain ⟨name, ns, h1, h2⟩ := (hasListerSecret_iff c sc).mp hSecret
        rw [Execute_with_secret c conv p item backup sc hFrom hSecret] at hItems
        split at hItems
        · simp at hItems
        · simp at hItems
          subst hItems
          simp at hMem
          refine ⟨sc, name, ns, rfl, h1, h2, ?_⟩
          rw [hMem]
          simp [GoMap.index, h1, h2]

/-- Only the name key present, and only the namespace key present with the
empty string: no additional item in either case. -/
theorem execute_absent_annotation_key_witness :
    (Execute sampleKeys typedConverter freshAction
        ⟨sampleClass (GoMap.mk [("list-secret-name", "sec1")])⟩
        none).1.additionalItems.getD [] = [] ∧
    (Execute sampleKeys typedConverter freshAction
        ⟨sampleClass (GoMap.mk [("list-secret-namespace", "")])⟩
        none).1.additionalItems.getD [] = [] :=
  ⟨((execute_absent_annotation_key sampleKeys typedConverter freshAction
      ⟨sampleClass (GoMap.mk [("list-secret-name", "sec1")])⟩
      none).1 _ rfl (Or.inr (by decide))).1,
   ((execute_absent_annotation_key sampleKeys typedConverter freshAction
      ⟨sampleClass (GoMap.mk [("list-secret-namespace", "")])⟩
      none).1 _ rfl (Or.inl (by decide))).1⟩

/-- C5: let the converter decode what it encoded to a record with the same
content and encode records with the same content alike, and let the marker key
differ from both lister-secret keys. If `Execute` succeeds on `item` with output
`item'`, then `Execute` on `item'` returns the same five results: the output
`item'`, the same list of additional items, and no error. When the input has a
lister secret the second run yields the one reference of the first run, and its
output is the encoding of a record with exactly one binding of the marker key,
of value `"true"`. -/
theorem execute_idempotent {M : Type} (c : UtilConstants) (conv : UnstructuredConverter M)
    (p p' : VolumeSnapshotClassBackupItemAction) (item item' : Unstructured M)
    (backup backup' : Option Backup)
    (hDecode : DecodesEncoded conv) (hEncode : EncodesContent conv)
    (hName : c.PrefixedSnapshotterListSecretNameKey ≠ c.MustIncludeAdditionalItemAnnotation)
    (hNamespace :
      c.PrefixedSnapshotterListSecretNamespaceKey ≠ c.MustIncludeAdditionalItemAnnotation)
    (hItem : (Execute c conv p item backup).1.item = some item') :
    (Execute c conv p' item' backup').1 = (Execute c conv p item backup).1 ∧
    (Execute c conv p' item' backup').1.item = some item' ∧
    (Execute c conv p' item' backup').1.err = none ∧
    (∀ sc, conv.FromUnstructured item.UnstructuredContent = Except.ok sc →
      IsVolumeSnapshotClassHasListerSecret c sc = true →
      (Execute c conv p' item' backup').1.additionalItems =
        some [{ Group := "", Resource := "secrets",
                Name := sc.Annotations.index c.PrefixedSnapshotterListSecretNameKey,
                Namespace :=
                  sc.Annotations.index c.PrefixedSnapshotterListSecretNamespaceKey }] ∧
      ∃ out : VolumeSnapshotClass,
        conv.ToUnstructured out = Except.ok item'.Object ∧
        out.Annotations.lookup c.MustIncludeAdditionalItemAnnotation = some "true" ∧
        (out.Annotations.entries.filter
          (fun e => decide (e.1 = c.MustIncludeAdditionalItemAnnotation))).length = 1) := by
  obtain ⟨m⟩ := item'
  cases hFrom : conv.FromUnstructured item.UnstructuredContent with
  | error e =>
    rw [Execute_decode_error c conv p item backup e hFrom] at hItem
    simp at hItem
  | ok sc =>
    rcases Execute_item_cases c conv p item backup sc m hFrom hItem with
      ⟨hSecret, hTo⟩ | ⟨hSecret, hTo⟩
    · obtain ⟨y, hBack, hSame⟩ := hDecode sc m hTo
      have hSecretY : IsVolumeSnapshotClassHasListerSecret c y = false :=
        (hasListerSecret_congr c y sc hSame.2.2.2.1).trans hSecret
      have h2 := Execute_without_secret c conv p' ⟨m⟩ backup' y hBack hSecretY
      have h1 := Execute_without_secret c conv p item backup sc hFrom hSecret
      rw [hEncode y sc hSame, hTo] at h2
      rw [hTo] at h1
      refine ⟨by rw [h1, h2], by rw [h2], by rw [h2], ?_⟩
      intro sc' hFrom' hSecret'
      injection hFrom' with hEq
      rw [← hEq, hSecret] at hSecret'
      cases hSecret'
    · obtain ⟨y, hBack, hSame⟩ := hDecode _ m hTo
      obtain ⟨hN, hD, hP, hAnn, hPar⟩ := hSame
      have hAnnK : ∀ k, k ≠ c.MustIncludeAdditionalItemAnnotation →
          y.Annotations.lookup k = sc.Annotations.lookup k := by
        intro k hk
        have h := hAnn k
        rw [lookup_marked c sc k, if_neg hk] at h
        exact h
      have hMarkerY : y.Annotations.lookup c.MustIncludeAdditionalItemAnnotation = some "true" := by
        have h := hAnn c.MustIncludeAdditionalItemAnnotation
        rw [lookup_marked c sc _, if_pos rfl] at h
        exact h
      have hSecretY : IsVolumeSnapshotClassHasListerSecret c y = true := by
        rw [← hSecret]
        simp only [IsVolumeSnapshotClassHasListerSecret, hAnnK _ hName, hAnnK _ hNamespace]
      have hSameMarked :
          SameContent
            { y with
              Annotations := GoMap.mk (assignEntries y.Annotations.entries
                c.MustIncludeAdditionalItemAnnotation "true") }
            { sc with
              Annotations := GoMap.mk (assignEntries sc.Annotations.entries
                c.MustIncludeAdditionalItemAnnotation "true") } := by
        refine ⟨hN, hD, hP, ?_, hPar⟩
        intro k
        show (GoMap.mk (assignEntries y.Annotations.entries
            c.MustIncludeAdditionalItemAnnotation "true")).lookup k =
          (GoMap.mk (assignEntries sc.Annotations.entries
            c.MustIncludeAdditionalItemAnnotation "true")).lookup k
        rw [lookup_marked c y k, lookup_marked c sc k]
        by_cases hk : k = c.MustIncludeAdditionalItemAnnotation
        · rw [if_pos hk, if_pos hk]
        · rw [if_neg hk, if_neg hk, hAnnK k hk]
      have h2 := Execute_with_secret c conv p' ⟨m⟩ backup' y hBack hSecretY
      have h1 := Execute_with_secret c conv p item backup sc hFrom hSecret
      rw [hEncode _ _ hSameMarked, hTo] at h2
      rw [hTo] at h1
      simp only [GoMap.index, hAnnK _ hName, hAnnK _ hNamespace] at h2
      simp only [GoMap.index] at h1
      refine ⟨by rw [h1, h2], by rw [h2], by rw [h2], ?_⟩
      intro sc' hFrom' _
      injection hFrom' with hEq
      subst hEq
      refine ⟨by rw [h2]; simp [GoMap.index], _, hTo, ?_, ?_⟩
      · have h := lookup_marked c sc c.MustIncludeAdditionalItemAnnotation
        rw [if_pos rfl] at h
        exact h
      · exact assignEntries_count _ _ _

/-- With a converter that keeps neither the order of bindings nor empty maps,
feeding the output for the record naming `sec1` in `ns1` back into `Execute`
returns that output and the same results again. -/
theorem execute_idempotent_witness :
    (Execute sampleKeys canonicalConverter freshAction
        ⟨canonicalize (sampleClass markedSecretAnnotations)⟩ none).1 =
      (Execute sampleKeys canonicalConverter freshAction
        ⟨sampleClass secretAnnotations⟩ none).1 ∧
    (Execute sampleKeys canonicalConverter freshAction
        ⟨canonicalize (sampleClass markedSecretAnnotations)⟩ none).1.item =
      some ⟨canonicalize (sampleClass markedSecretAnnotations)⟩ ∧
    (Execute sampleKeys canonicalConverter freshAction
        ⟨canonicalize (sampleClass markedSecretAnnotations)⟩ none).1.err = none :=
  have h := execute_idempotent sampleKeys canonicalConverter freshAction freshAction
    ⟨sampleClass secretAnnotations⟩ ⟨canonicalize (sampleClass markedSecretAnnotations)⟩
    none none canonicalConverter_decodes canonicalConverter_encodes (by decide) (by decide)
    (by
      rw [Execute_with_secret sampleKeys canonicalConverter freshAction
        ⟨sampleClass secretAnnotations⟩ none (sampleClass secretAnnotations) rfl (by decide)]
      exact congrArg (fun x => some (Unstructured.mk (canonicalize x))) (by decide))
  ⟨h.1, h.2.1, h.2.2.1⟩

/-- C6: when `Execute` succeeds, its output is the encoding of a record that has
the name, driver, parameters and deletion policy of the decoded input and the
same value as the decoded input under every annotation key other than the marker
key. For a converter that round-trips, that record is the decoded output. -/
theorem execute_frame {M : Type} (c : UtilConstants) (conv : UnstructuredConverter M)
    (p : VolumeSnapshotClassBackupItemAction) (item : Unstructured M) (backup : Option Backup)
    (sc : VolumeSnapshotClass) (m : M)
    (hFrom : conv.FromUnstructured item.UnstructuredContent = Except.ok sc)
    (hItem : (Execute c conv p item backup).1.item = some ⟨m⟩) :
    ∃ out : VolumeSnapshotClass,
      conv.ToUnstructured out = Except.ok m ∧
      (RoundTrips conv → conv.FromUnstructured m = Except.ok out) ∧
      out.Name = sc.Name ∧ out.Driver = sc.Driver ∧ out.Parameters = sc.Parameters ∧
      out.DeletionPolicy = sc.DeletionPolicy ∧
      (∀ k, k ≠ c.MustIncludeAdditionalItemAnnotation →
        out.Annotations.lookup k = sc.Annotations.lookup k ∧
        out.Annotations.index k = sc.Annotations.index k) := by
  rcases Execute_item_cases c conv p item backup sc m hFrom hItem with ⟨_, hTo⟩ | ⟨_, hTo⟩
  · exact ⟨sc, hTo, fun hRound => hRound sc m hTo, rfl, rfl, rfl, rfl, fun _ _ => ⟨rfl, rfl⟩⟩
  · refine ⟨_, hTo, fun hRound => hRound _ m hTo, rfl, rfl, rfl, rfl, ?_⟩
    intro k hk
    simp [GoMap.index, GoMap.lookup, lookupEntries_assign_ne _ _ _ _ hk]

/-- The output for the record naming `sec1` in `ns1` keeps the name, the driver
and both lister-secret annotations. -/
theorem execute_frame_witness :
    ∃ out : VolumeSnapshotClass,
      typedConverter.ToUnstructured out = Except.ok (sampleClass markedSecretAnnotations) ∧
      (RoundTrips typedConverter →
        typedConverter.FromUnstructured (sampleClass markedSecretAnnotations) = Except.ok out) ∧
      out.Name = (sampleClass secretAnnotations).Name ∧
      out.Driver = (sampleClass secretAnnotations).Driver ∧
      out.Parameters = (sampleClass secretAnnotations).Parameters ∧
      out.DeletionPolicy = (sampleClass secretAnnotations).DeletionPolicy ∧
      (∀ k, k ≠ sampleKeys.MustIncludeAdditionalItemAnnotation →
        out.Annotations.lookup k = (sampleClass secretAnnotations).Annotations.lookup k ∧
        out.Annotations.index k = (sampleClass secretAnnotations).Annotations.index k) :=
  execute_frame sampleKeys typedConverter freshAction ⟨sampleClass secretAnnotations⟩ none
    (sampleClass secretAnnotations) (sampleClass markedSecretAnnotations) rfl (by decide)

end VolumeSnapshotClassAction
